import Mathlib

/-!
Verification development for the libuev event-loop reactor (src/libuev.c).

The embedding models the reactor state as one record `St`:
the watcher list (the intrusive `LIST` in `uev_t`), the set of epoll
registrations (identified by the watcher tag attached as
`epoll_event.data.ptr`), the `running` flag, the set of open OS file
descriptors, and a ghost log of the `timerfd_settime` calls actually
issued.  OS calls that can fail nondeterministically from the point of
view of this library (`calloc`, `epoll_ctl(ADD)`, `timerfd_create`) are
driven by explicit Boolean oracles; `timerfd_settime` failure is the
deterministic kernel validity check on the converted `itimerspec`.
Callbacks are modelled as small command programs over the same API, so
that re-entrant rearm / delete / exit from inside a callback is
expressible.  The dispatch loop `uev_run` is driven by a trace of
`epoll_wait` outcomes.
-/

namespace LibUEV

/-- Watcher kind, `uev_type_t`: `UEV_FILE_TYPE` or `UEV_TIMER_TYPE`. -/
inductive UevType where
  | file
  | timer
deriving DecidableEq, Repr

/-- Interest direction, `uev_dir_t`: `UEV_DIR_INBOUND` or `UEV_DIR_OUTBOUND`. -/
inductive UevDir where
  | inbound
  | outbound
deriving DecidableEq, Repr

/-- A callback body, modelled as a straight-line program over the re-entrant
part of the libuev API: rearm a timer (`uev_timer_set`), delete a timer
(`uev_timer_delete`), request loop termination (`uev_exit`), or do nothing. -/
inductive Cmd where
  | nop
  | timerSet (wid : Nat) (timeout period : Int)
  | timerDelete (wid : Nat)
  | exitLoop
deriving DecidableEq, Repr

/-- One watcher, `uev_io_t` (libuev.c / uev.h).  The field `id` stands for the
identity of the heap node (the pointer value used as the epoll tag); `handler`
is stored as created (`new_watcher` insists it is non-null); `timeout` and
`period` are the timer fields, zero-initialised by `calloc`. -/
structure Watcher where
  id : Nat
  type : UevType
  fd : Int
  dir : UevDir
  handler : Option (List Cmd)
  timeout : Int
  period : Int
deriving DecidableEq, Repr

/-- The world state: the `uev_t` context plus the bits of OS state libuev
touches.  `watchers` is `ctx->watchers` (head insertion order), `epollSet`
is the set of watcher tags currently registered with `ctx->efd`, `openFds`
is the set of open descriptors, `programLog` is a ghost log of the
successful `timerfd_settime` calls (watcher tag, timeout, period), and
`nextId` / `nextFd` are fresh-name supplies for heap nodes and descriptors. -/
structure St where
  watchers : List Watcher
  epollSet : List Nat
  running : Bool
  nextId : Nat
  nextFd : Int
  openFds : List Int
  efd : Int
  programLog : List (Nat × Int × Int)
deriving DecidableEq, Repr

/-- Remove every occurrence of an element from a list (used for epoll
unregistration and for `close`). -/
def removeAll {α : Type} [DecidableEq α] : List α → α → List α
  | [], _ => []
  | x :: xs, a => if x = a then removeAll xs a else x :: removeAll xs a

/-- Resolve a watcher tag to the watcher node, as dereferencing the
`data.ptr` tag does in C. -/
def lookupW : List Watcher → Nat → Option Watcher
  | [], _ => none
  | w :: ws, wid => if w.id = wid then some w else lookupW ws wid

/-- `LIST_REMOVE` of the node with the given identity. -/
def removeW : List Watcher → Nat → List Watcher
  | [], _ => []
  | w :: ws, wid => if w.id = wid then removeW ws wid else w :: removeW ws wid

/-- In-place update of the stored `timeout` / `period` fields of the watcher
with the given identity (`w->timeout = timeout; w->period = period;`). -/
def setTP (wid : Nat) (t p : Int) (w : Watcher) : Watcher :=
  if w.id = wid then { w with timeout := t, period := p } else w

/-- `new_watcher` (libuev.c:44).  `ctxOk` is whether the `ctx` pointer is
non-null, `handler = none` models a null handler pointer; `callocOk` and
`epollOk` are the failure oracles for `calloc` and `epoll_ctl(EPOLL_CTL_ADD)`.
Returns the updated world and the created watcher tag, `none` on failure.
On the `epoll_ctl` failure path the fresh node is freed and nothing is
inserted; only after `epoll_ctl` succeeds is the node put on the list. -/
def new_watcher (st : St) (ctxOk : Bool) (ty : UevType) (fd : Int) (dir : UevDir)
    (handler : Option (List Cmd)) (callocOk epollOk : Bool) : St × Option Nat :=
  if ctxOk = false ∨ handler = none then (st, none)
  else if callocOk = false then (st, none)
  else
    let w : Watcher :=
      { id := st.nextId, type := ty, fd := fd, dir := dir,
        handler := handler, timeout := 0, period := 0 }
    if epollOk = false then (st, none)
    else ({ st with watchers := w :: st.watchers,
                    epollSet := st.nextId :: st.epollSet,
                    nextId := st.nextId + 1 }, some st.nextId)

/-- `delete_watcher` (libuev.c:76): null checks, best-effort
`epoll_ctl(EPOLL_CTL_DEL)`, `LIST_REMOVE`, `free`.  The descriptor is NOT
closed here. -/
def delete_watcher (st : St) (ctxOk : Bool) (ow : Option Nat) : St × Int :=
  match ow with
  | none => (st, -1)
  | some wid =>
    if ctxOk = false then (st, -1)
    else ({ st with epollSet := removeAll st.epollSet wid,
                    watchers := removeW st.watchers wid }, 0)

/-- `uev_io_create` (libuev.c:93). -/
def uev_io_create (st : St) (ctxOk : Bool) (handler : Option (List Cmd))
    (fd : Int) (dir : UevDir) (callocOk epollOk : Bool) : St × Option Nat :=
  new_watcher st ctxOk UevType.file fd dir handler callocOk epollOk

/-- `uev_io_delete` (libuev.c:98). -/
def uev_io_delete (st : St) (ctxOk : Bool) (ow : Option Nat) : St × Int :=
  delete_watcher st ctxOk ow

/-- `struct timespec`. -/
structure Timespec where
  tv_sec : Int
  tv_nsec : Int
deriving DecidableEq, Repr

/-- `msec2tspec` (libuev.c:34); C integer division truncates toward zero. -/
def msec2tspec (msec : Int) : Timespec :=
  { tv_sec := msec.tdiv 1000, tv_nsec := msec.tmod 1000 * 1000000 }

/-- Kernel validity check of one timespec (`timespec64_valid`): nonnegative
seconds, nanoseconds within one second. -/
def tspecValid (ts : Timespec) : Bool :=
  decide (0 ≤ ts.tv_sec) && decide (0 ≤ ts.tv_nsec) && decide (ts.tv_nsec < 1000000000)

/-- Whether a `timerfd_settime` call with the converted `it_value` and
`it_interval` succeeds. -/
def timerfd_settime_ok (timeout period : Int) : Bool :=
  tspecValid (msec2tspec timeout) && tspecValid (msec2tspec period)

/-- `uev_timer_set` (libuev.c:147): null checks, store `timeout` / `period`
on the watcher, then return 0 early when the loop is not running; otherwise
program the OS timer with `timerfd_settime` (logged on success). -/
def uev_timer_set (st : St) (ctxOk : Bool) (ow : Option Nat) (timeout period : Int) :
    St × Int :=
  match ow with
  | none => (st, -1)
  | some wid =>
    if ctxOk = false then (st, -1)
    else
      let st1 : St := { st with watchers := st.watchers.map (setTP wid timeout period) }
      if st1.running = false then (st1, 0)
      else if timerfd_settime_ok timeout period then
        ({ st1 with programLog := st1.programLog ++ [(wid, timeout, period)] }, 0)
      else (st1, -1)

/-- `uev_timer_delete` (libuev.c:171): null checks, disarm with
`uev_timer_set(ctx, w, 0, 0)` (result ignored), then `delete_watcher`.
No `close` of the timer descriptor appears anywhere on this path. -/
def uev_timer_delete (st : St) (ctxOk : Bool) (ow : Option Nat) : St × Int :=
  match ow with
  | none => (st, -1)
  | some wid =>
    if ctxOk = false then (st, -1)
    else
      let st1 := (uev_timer_set st ctxOk (some wid) 0 0).1
      delete_watcher st1 ctxOk (some wid)

/-- The part of `uev_timer_create` (libuev.c:121) after `timerfd_create`
succeeded with descriptor `fd`: `new_watcher`, then the initial
`uev_timer_set`; on watcher-registration failure or arming failure the
fresh descriptor is closed (`goto exit` / the explicit cleanup) before
returning NULL. -/
def uev_timer_create_body (st1 : St) (ctxOk : Bool) (handler : Option (List Cmd))
    (timeout period : Int) (fd : Int) (callocOk epollOk : Bool) : St × Option Nat :=
  let r := new_watcher st1 ctxOk UevType.timer fd UevDir.inbound handler callocOk epollOk
  match r.2 with
  | none => ({ r.1 with openFds := removeAll r.1.openFds fd }, none)
  | some wid =>
    let s := uev_timer_set r.1 ctxOk (some wid) timeout period
    if s.2 = 0 then (s.1, some wid)
    else
      let st4 := (delete_watcher s.1 ctxOk (some wid)).1
      ({ st4 with openFds := removeAll st4.openFds fd }, none)

/-- `uev_timer_create` (libuev.c:121): `timerfd_create` (oracle `tfdOk`),
allocating the fresh descriptor `st.nextFd` into `openFds` on success, then
the rest of the construction. -/
def uev_timer_create (st : St) (ctxOk : Bool) (handler : Option (List Cmd))
    (timeout period : Int) (tfdOk callocOk epollOk : Bool) : St × Option Nat :=
  if tfdOk = false then (st, none)
  else
    uev_timer_create_body
      { st with nextFd := st.nextFd + 1, openFds := st.nextFd :: st.openFds }
      ctxOk handler timeout period st.nextFd callocOk epollOk

/-- Success path of `uev_ctx_create` (libuev.c:185): a fresh epoll
descriptor, the event scratch buffer, an empty watcher list, `running`
false (zeroed by `calloc`).  No claim concerns its allocation-failure
paths, so they are not modelled. -/
def uev_ctx_create (efd : Int) : St :=
  { watchers := [], epollSet := [], running := false, nextId := 0,
    nextFd := efd + 1, openFds := [efd], efd := efd, programLog := [] }

/-- One iteration of the teardown loop in `uev_ctx_delete` (libuev.c:217):
delete the first watcher, through `uev_timer_delete` for timers and
`uev_io_delete` otherwise. -/
def ctxDeleteStep (st : St) (w : Watcher) : St :=
  if w.type = UevType.timer then (uev_timer_delete st true (some w.id)).1
  else (uev_io_delete st true (some w.id)).1

/-- The `while (!LIST_EMPTY(...))` teardown loop.  Each iteration removes at
least the head node, so fuel equal to the initial list length drains the
list (proved below in `ctxDeleteLoop_drains`). -/
def ctxDeleteLoop : Nat → St → St
  | 0, st => st
  | fuel + 1, st =>
    match st.watchers with
    | [] => st
    | w :: _ => ctxDeleteLoop fuel (ctxDeleteStep st w)

/-- `uev_ctx_delete` (libuev.c:215): drain the watcher list, then
`close(ctx->efd)` and free the buffers.  Only the epoll descriptor is
closed. -/
def uev_ctx_delete (st : St) : St :=
  let st1 := ctxDeleteLoop st.watchers.length st
  { st1 with openFds := removeAll st1.openFds st1.efd }

/-- `uev_exit` (libuev.c:291): unconditionally clear the running flag. -/
def uev_exit (st : St) : St :=
  { st with running := false }

/-- Ghost instrumentation of one `uev_run` activation: whether `epoll_wait`
failed non-retryably, whether a timer `read` failed, whether `uev_exit` was
called, and the sequence of watcher tags whose callbacks were invoked. -/
structure RunStats where
  waitFailed : Bool := false
  readFailed : Bool := false
  exitCalled : Bool := false
  invoked : List Nat := []
deriving DecidableEq, Repr

/-- Execute one callback command against the live context. -/
def runCmd (st : St) (stats : RunStats) : Cmd → St × RunStats
  | Cmd.nop => (st, stats)
  | Cmd.timerSet wid t p => ((uev_timer_set st true (some wid) t p).1, stats)
  | Cmd.timerDelete wid => ((uev_timer_delete st true (some wid)).1, stats)
  | Cmd.exitLoop => (uev_exit st, { stats with exitCalled := true })

/-- Execute a callback body. -/
def runCmds : St → RunStats → List Cmd → St × RunStats
  | st, stats, [] => (st, stats)
  | st, stats, c :: cs =>
    let r := runCmd st stats c
    runCmds r.1 r.2 cs

/-- The callback invocation in the dispatch loop (libuev.c:268):
`if (w->handler) w->handler(ctx, w, w->data);`.  The invocation is logged. -/
def afterCb (st : St) (stats : RunStats) (w : Watcher) : St × RunStats :=
  match w.handler with
  | some cb => runCmds st { stats with invoked := stats.invoked ++ [w.id] } cb
  | none => (st, stats)

/-- Timer housekeeping after the callback (libuev.c:271): consume the
expiration counter (`readOk` is the oracle for the 8-byte `read`; on a short
read record failure and clear `running`), then re-read the stored `period`
and delete the watcher when it is zero. -/
def timerHousekeep (st : St) (stats : RunStats) (result : Int) (wid : Nat)
    (readOk : Bool) : St × RunStats × Int :=
  let st1 := if readOk then st else { st with running := false }
  let stats1 := if readOk then stats else { stats with readFailed := true }
  let result1 := if readOk then result else -1
  match lookupW st1.watchers wid with
  | some w =>
    if w.period = 0 then ((uev_timer_delete st1 true (some wid)).1, stats1, result1)
    else (st1, stats1, result1)
  | none => (st1, stats1, result1)

/-- Dispatch of one ready event (libuev.c:265): resolve the tag, invoke the
callback, then timer housekeeping.  A tag whose watcher is no longer on the
list is skipped (in C this would dereference freed memory; no claim depends
on that corner). -/
def processEvent (st : St) (stats : RunStats) (result : Int) (ev : Nat × Bool) :
    St × RunStats × Int :=
  match lookupW st.watchers ev.1 with
  | none => (st, stats, result)
  | some w =>
    let r := afterCb st stats w
    if w.type = UevType.timer then timerHousekeep r.1 r.2 result w.id ev.2
    else (r.1, r.2, result)

/-- The `for (i = 0; i < nfds; i++)` batch: every returned event is
processed, even after `running` has been cleared mid-batch. -/
def processBatch : St → RunStats → Int → List (Nat × Bool) → St × RunStats × Int
  | st, stats, result, [] => (st, stats, result)
  | st, stats, result, ev :: evs =>
    let r := processEvent st stats result ev
    processBatch r.1 r.2.1 r.2.2 evs

/-- One outcome of the blocking `epoll_wait`: interrupted by a signal,
failed for another reason, or a batch of ready events, each carrying its
timer-read oracle. -/
inductive WaitOutcome where
  | intr
  | fail
  | ready (evs : List (Nat × Bool))
deriving DecidableEq, Repr

/-- Result of the dispatch loop: final world, ghost stats, the `result`
local, and whether the loop is still blocked in `epoll_wait` with the
outcome trace exhausted (as opposed to having returned). -/
structure LoopRes where
  st : St
  stats : RunStats
  result : Int
  blockedFlag : Bool
deriving DecidableEq, Repr

/-- The `while (ctx->running)` loop of `uev_run` (libuev.c:253), driven by a
trace of `epoll_wait` outcomes: a signal interruption retries the wait, any
other wait failure records failure and clears `running`, and a ready batch
is dispatched in full. -/
def runLoop : St → RunStats → Int → List WaitOutcome → LoopRes
  | st, stats, result, [] =>
    { st := st, stats := stats, result := result, blockedFlag := st.running }
  | st, stats, result, o :: rest =>
    if st.running = false then
      { st := st, stats := stats, result := result, blockedFlag := false }
    else
      match o with
      | WaitOutcome.intr => runLoop st stats result rest
      | WaitOutcome.fail =>
        runLoop { st with running := false } { stats with waitFailed := true } (-1) rest
      | WaitOutcome.ready evs =>
        let r := processBatch st stats result evs
        runLoop r.1 r.2.1 r.2.2 rest

/-- Outcome of `uev_run`: immediate `EINVAL` return for a null context, or
the loop result. -/
inductive RunOutcome where
  | einval (result : Int)
  | done (r : LoopRes)
deriving DecidableEq, Repr

/-- One step of the deferred-arm pass:
`if (UEV_TIMER_TYPE == w->type) uev_timer_set(ctx, w, w->timeout, w->period);`. -/
def armStep (st : St) (w : Watcher) : St :=
  if w.type = UevType.timer then (uev_timer_set st true (some w.id) w.timeout w.period).1
  else st

/-- The deferred-arm fold: `uev_timer_set(ctx, w, w->timeout, w->period)`
for each timer watcher of the snapshot list. -/
def armAll (l : List Watcher) (st : St) : St :=
  l.foldl armStep st

/-- The dormant-timer start pass of `uev_run` (libuev.c:248): `LIST_FOREACH`
re-invoking `uev_timer_set` with the stored values.  Each step rewrites a
watcher with its own stored values, so iterating over the entry snapshot
matches iterating over the live list. -/
def startTimers (st0 : St) : St :=
  armAll st0.watchers st0

/-- `uev_run` (libuev.c:234): null check (`EINVAL`, -1), set `running`,
deferred-arm pass, then the wait/dispatch loop. -/
def uev_run (st : St) (ctxOk : Bool) (trace : List WaitOutcome) : RunOutcome :=
  if ctxOk = false then RunOutcome.einval (-1)
  else RunOutcome.done (runLoop (startTimers { st with running := true }) {} 0 trace)

/-- One client-level lifecycle operation on the context, for quantifying
over create / delete sequences. -/
inductive Op where
  | ioCreate (handler : Option (List Cmd)) (fd : Int) (dir : UevDir) (callocOk epollOk : Bool)
  | ioDelete (ow : Option Nat)
  | timerCreate (handler : Option (List Cmd)) (timeout period : Int)
      (tfdOk callocOk epollOk : Bool)
  | timerDelete (ow : Option Nat)
deriving DecidableEq, Repr

/-- Apply one lifecycle operation (with a valid context pointer). -/
def applyOp (st : St) : Op → St
  | Op.ioCreate h fd dir c e => (uev_io_create st true h fd dir c e).1
  | Op.ioDelete ow => (uev_io_delete st true ow).1
  | Op.timerCreate h t p tf c e => (uev_timer_create st true h t p tf c e).1
  | Op.timerDelete ow => (uev_timer_delete st true ow).1

/-- Apply a sequence of lifecycle operations. -/
def applyOps (st : St) (ops : List Op) : St :=
  ops.foldl applyOp st

/-- A watcher identity is absent from the context. -/
def Absent (st : St) (wid : Nat) : Prop :=
  ∀ w ∈ st.watchers, w.id ≠ wid

instance (st : St) (wid : Nat) : Decidable (Absent st wid) := by
  unfold Absent; infer_instance

/-! ### List-level helper lemmas -/

lemma removeAll_of_not_mem {α : Type} [DecidableEq α] {l : List α} {a : α}
    (h : a ∉ l) : removeAll l a = l := by
  induction l with
  | nil => rfl
  | cons x xs ih =>
    simp only [List.mem_cons, not_or] at h
    simp [removeAll, Ne.symm h.1, ih h.2]

lemma mem_removeAll {α : Type} [DecidableEq α] {l : List α} {a b : α}
    (h : b ∈ removeAll l a) : b ∈ l := by
  induction l with
  | nil => simp [removeAll] at h
  | cons x xs ih =>
    by_cases hx : x = a
    · simp only [removeAll, if_pos hx] at h
      exact List.mem_cons_of_mem _ (ih h)
    · simp only [removeAll, if_neg hx, List.mem_cons] at h
      rcases h with h | h
      · exact h ▸ List.mem_cons_self _ _
      · exact List.mem_cons_of_mem _ (ih h)

lemma setTP_id (wid : Nat) (t p : Int) (w : Watcher) : (setTP wid t p w).id = w.id := by
  unfold setTP; split <;> rfl

lemma mem_removeW {l : List Watcher} {wid : Nat} {w : Watcher}
    (h : w ∈ removeW l wid) : w ∈ l := by
  induction l with
  | nil => simp [removeW] at h
  | cons x xs ih =>
    by_cases hx : x.id = wid
    · simp only [removeW, if_pos hx] at h
      exact List.mem_cons_of_mem _ (ih h)
    · simp only [removeW, if_neg hx, List.mem_cons] at h
      rcases h with h | h
      · exact h ▸ List.mem_cons_self _ _
      · exact List.mem_cons_of_mem _ (ih h)

lemma mem_removeW_ne {l : List Watcher} {wid : Nat} {w : Watcher}
    (h : w ∈ removeW l wid) : w.id ≠ wid := by
  induction l with
  | nil => simp [removeW] at h
  | cons x xs ih =>
    by_cases hx : x.id = wid
    · simp only [removeW, if_pos hx] at h
      exact ih h
    · simp only [removeW, if_neg hx, List.mem_cons] at h
      rcases h with h | h
      · exact h ▸ hx
      · exact ih h

lemma lookupW_removeW_self (l : List Watcher) (wid : Nat) :
    lookupW (removeW l wid) wid = none := by
  induction l with
  | nil => rfl
  | cons x xs ih =>
    by_cases hx : x.id = wid
    · simp [removeW, if_pos hx, ih]
    · simp [removeW, if_neg hx, lookupW, hx, ih]

lemma lookupW_eq_none_iff (l : List Watcher) (v : Nat) :
    lookupW l v = none ↔ ∀ w ∈ l, w.id ≠ v := by
  induction l with
  | nil => simp [lookupW]
  | cons x xs ih =>
    by_cases hx : x.id = v
    · simp [lookupW, hx]
    · simp [lookupW, hx, ih]

lemma lookupW_mem {l : List Watcher} {v : Nat} {w : Watcher}
    (h : lookupW l v = some w) : w ∈ l ∧ w.id = v := by
  induction l with
  | nil => simp [lookupW] at h
  | cons x xs ih =>
    by_cases hx : x.id = v
    · simp only [lookupW, if_pos hx, Option.some.injEq] at h
      exact ⟨h ▸ List.mem_cons_self _ _, h ▸ hx⟩
    · simp only [lookupW, if_neg hx] at h
      exact ⟨List.mem_cons_of_mem _ (ih h).1, (ih h).2⟩

lemma map_id_removeW (l : List Watcher) (wid : Nat) :
    (removeW l wid).map (fun w => w.id) = removeAll (l.map (fun w => w.id)) wid := by
  induction l with
  | nil => rfl
  | cons x xs ih =>
    by_cases hx : x.id = wid
    · simp [removeW, removeAll, if_pos hx, ih]
    · simp [removeW, removeAll, if_neg hx, ih]

lemma map_id_map_setTP (l : List Watcher) (wid : Nat) (t p : Int) :
    (l.map (setTP wid t p)).map (fun w => w.id) = l.map (fun w => w.id) := by
  induction l with
  | nil => rfl
  | cons x xs ih => simp [setTP_id, ih]

lemma lookupW_map_setTP_self (l : List Watcher) (wid : Nat) (t p : Int) :
    lookupW (l.map (setTP wid t p)) wid =
      (lookupW l wid).map (fun w => { w with timeout := t, period := p }) := by
  induction l with
  | nil => rfl
  | cons x xs ih =>
    by_cases hx : x.id = wid
    · simp [lookupW, setTP_id, hx, setTP, Option.map]
    · simp [lookupW, setTP_id, hx, ih]

lemma map_setTP_self {l : List Watcher} {wid : Nat} {t p : Int}
    (h : ∀ w ∈ l, w.id = wid → w.timeout = t ∧ w.period = p) :
    l.map (setTP wid t p) = l := by
  induction l with
  | nil => rfl
  | cons x xs ih =>
    have hx := h x (List.mem_cons_self _ _)
    have hxs : ∀ w ∈ xs, w.id = wid → w.timeout = t ∧ w.period = p :=
      fun w hw => h w (List.mem_cons_of_mem _ hw)
    by_cases hid : x.id = wid
    · obtain ⟨h1, h2⟩ := hx hid
      have hs : setTP wid t p x = x := by
        unfold setTP
        rw [if_pos hid, ← h1, ← h2]
      simp [hs, ih hxs]
    · simp [setTP, hid, ih hxs]

lemma nodup_map_id_inj {l : List Watcher}
    (h : (l.map (fun w => w.id)).Nodup) :
    ∀ w ∈ l, ∀ w' ∈ l, w'.id = w.id → w' = w := by
  induction l with
  | nil => simp
  | cons x xs ih =>
    simp only [List.map_cons, List.nodup_cons] at h
    intro w hw w' hw' hid
    rcases List.mem_cons.mp hw with hwx | hw
    · rcases List.mem_cons.mp hw' with hwx' | hw'
      · rw [hwx, hwx']
      · exfalso
        apply h.1
        rw [← hwx, ← hid]
        exact List.mem_map_of_mem _ hw'
    · rcases List.mem_cons.mp hw' with hwx' | hw'
      · exfalso
        apply h.1
        rw [← hwx', hid]
        exact List.mem_map_of_mem _ hw
      · exact ih h.2 w hw w' hw' hid

/-! ### Claim C2, C9, C10 and the C4 counterexample state -/

/-- Claim C2: when watcher registration is invoked with a valid context and
callback and `epoll_ctl(EPOLL_CTL_ADD)` rejects the descriptor, the freshly
built watcher is freed, nothing is inserted, and NULL is returned — the
world is returned exactly unchanged.  The same holds on the `calloc`
failure path and on both `EINVAL` paths.  On the success path the watcher
is inserted into the list and exactly one epoll registration is added,
and this happens only in the branch where the epoll registration call
succeeded. -/
theorem c2_new_watcher_no_partial_state (st : St) (ty : UevType) (fd : Int)
    (dir : UevDir) (cb : List Cmd) (callocOk epollOk : Bool) :
    (new_watcher st true ty fd dir (some cb) true false = (st, none)) ∧
    (new_watcher st true ty fd dir (some cb) false epollOk = (st, none)) ∧
    (new_watcher st false ty fd dir (some cb) callocOk epollOk = (st, none)) ∧
    (new_watcher st true ty fd dir none callocOk epollOk = (st, none)) ∧
    (new_watcher st true ty fd dir (some cb) true true =
      ({ st with
          watchers := { id := st.nextId, type := ty, fd := fd, dir := dir,
                        handler := some cb, timeout := 0, period := 0 } :: st.watchers,
          epollSet := st.nextId :: st.epollSet,
          nextId := st.nextId + 1 }, some st.nextId)) := by
  refine ⟨?_, ?_, ?_, ?_, ?_⟩ <;> simp [new_watcher]

/-- Claim C9: `uev_timer_set` stores the requested timeout and period on
the watcher before checking the running flag or programming the OS timer,
so when `timerfd_settime` rejects the new schedule (return -1) the stored
fields already hold the new requested values. -/
theorem c9_timer_set_not_atomic (st : St) (wid : Nat) (w : Watcher) (t p : Int)
    (hrun : st.running = true)
    (hfind : lookupW st.watchers wid = some w)
    (hbad : timerfd_settime_ok t p = false) :
    (uev_timer_set st true (some wid) t p).2 = -1 ∧
    lookupW (uev_timer_set st true (some wid) t p).1.watchers wid =
      some { w with timeout := t, period := p } := by
  unfold uev_timer_set
  simp [hrun, hbad, lookupW_map_setTP_self, hfind]

/-- Concrete context for the C9 witness: one armed timer watcher, loop
running. -/
def c9st : St :=
  { watchers := [{ id := 0, type := UevType.timer, fd := 4, dir := UevDir.inbound,
                   handler := some [], timeout := 5, period := 0 }],
    epollSet := [0], running := true, nextId := 1, nextFd := 5,
    openFds := [3, 4], efd := 3, programLog := [] }

/-- Witness for C9: rearming with timeout -1 is rejected by the OS, yet the
stored timeout is already -1. -/
theorem c9_timer_set_not_atomic_witness :
    (uev_timer_set c9st true (some 0) (-1) 0).2 = -1 ∧
    lookupW (uev_timer_set c9st true (some 0) (-1) 0).1.watchers 0 =
      some { id := 0, type := UevType.timer, fd := 4, dir := UevDir.inbound,
             handler := some [], timeout := -1, period := 0 } :=
  c9_timer_set_not_atomic c9st 0
    { id := 0, type := UevType.timer, fd := 4, dir := UevDir.inbound,
      handler := some [], timeout := 5, period := 0 }
    (-1) 0 rfl (by decide) (by decide)

/-- Claim C10: `uev_exit` only clears the running flag; every other field
of the world (watcher list, epoll registrations, open descriptors, epoll
descriptor, program log, fresh-name supplies) is unchanged, and there is
no argument validation in its definition (the write is unconditional). -/
theorem c10_uev_exit_frame (st : St) :
    (uev_exit st).running = false ∧
    (uev_exit st).watchers = st.watchers ∧
    (uev_exit st).epollSet = st.epollSet ∧
    (uev_exit st).openFds = st.openFds ∧
    (uev_exit st).efd = st.efd ∧
    (uev_exit st).programLog = st.programLog ∧
    (uev_exit st).nextId = st.nextId ∧
    (uev_exit st).nextFd = st.nextFd := by
  simp [uev_exit]

/-- Concrete context for the C4 code-bug demonstration: epoll descriptor 3,
one timer watcher owning descriptor 4, both open. -/
def c4st : St :=
  { watchers := [{ id := 0, type := UevType.timer, fd := 4, dir := UevDir.inbound,
                   handler := some [], timeout := 10, period := 0 }],
    epollSet := [0], running := false, nextId := 1, nextFd := 5,
    openFds := [3, 4], efd := 3, programLog := [] }

/-- Claim C4 (code bug): `uev_timer_delete` disarms and then performs the
generic deletion, and it succeeds — but neither it nor `delete_watcher`
ever calls `close` on the timer descriptor, so descriptor 4 is still open
afterwards; `uev_ctx_delete` drains all watchers but closes only the epoll
descriptor 3, leaving the timer descriptor 4 open, contrary to the claim
that context deletion leaves no owned descriptor open. -/
theorem c4_timer_fd_leak :
    (uev_timer_delete c4st true (some 0)).2 = 0 ∧
    (uev_timer_delete c4st true (some 0)).1.watchers = [] ∧
    (uev_timer_delete c4st true (some 0)).1.openFds = [3, 4] ∧
    (uev_ctx_delete c4st).watchers = [] ∧
    (uev_ctx_delete c4st).openFds = [4] := by
  decide

/-! ### The teardown loop drains the watcher list -/

lemma length_removeW_le (l : List Watcher) (wid : Nat) :
    (removeW l wid).length ≤ l.length := by
  induction l with
  | nil => exact Nat.le_refl _
  | cons x xs ih =>
    by_cases hx : x.id = wid
    · simp only [removeW, if_pos hx]
      exact Nat.le_succ_of_le ih
    · simp only [removeW, if_neg hx, List.length_cons]
      exact Nat.succ_le_succ ih

lemma removeW_cons_self {x : Watcher} {l : List Watcher} {wid : Nat}
    (h : x.id = wid) : removeW (x :: l) wid = removeW l wid := by
  simp [removeW, h]

lemma uev_io_delete_watchers (st : St) (wid : Nat) :
    (uev_io_delete st true (some wid)).1.watchers = removeW st.watchers wid := by
  simp [uev_io_delete, delete_watcher]

lemma uev_timer_delete_watchers (st : St) (wid : Nat) :
    (uev_timer_delete st true (some wid)).1.watchers =
      removeW (st.watchers.map (setTP wid 0 0)) wid := by
  have hok : timerfd_settime_ok 0 0 = true := by decide
  by_cases hr : st.running = false <;>
    simp [uev_timer_delete, delete_watcher, uev_timer_set, hr, hok]

lemma ctxDeleteStep_shrinks (st : St) (w : Watcher) (rest : List Watcher)
    (h : st.watchers = w :: rest) :
    (ctxDeleteStep st w).watchers.length ≤ rest.length := by
  unfold ctxDeleteStep
  split_ifs with ht
  · rw [uev_timer_delete_watchers, h, List.map_cons,
      removeW_cons_self (by rw [setTP_id])]
    calc (removeW (rest.map (setTP w.id 0 0)) w.id).length
        ≤ (rest.map (setTP w.id 0 0)).length := length_removeW_le _ _
      _ = rest.length := List.length_map _ _
  · rw [uev_io_delete_watchers, h, removeW_cons_self rfl]
    exact length_removeW_le _ _

/-- With fuel at least the current list length, the teardown loop of
`uev_ctx_delete` empties the watcher list — each iteration deletes at
least the head node, exactly as the C `while (!LIST_EMPTY(...))` loop
terminates. -/
lemma ctxDeleteLoop_drains (fuel : Nat) (st : St) (h : st.watchers.length ≤ fuel) :
    (ctxDeleteLoop fuel st).watchers = [] := by
  induction fuel generalizing st with
  | zero =>
    have h0 : st.watchers = [] := List.length_eq_zero.mp (Nat.le_zero.mp h)
    simp [ctxDeleteLoop, h0]
  | succ n ih =>
    rcases hw : st.watchers with _ | ⟨w, rest⟩
    · simp [ctxDeleteLoop, hw]
    · simp only [ctxDeleteLoop, hw]
      apply ih
      have h1 := ctxDeleteStep_shrinks st w rest hw
      have h2 : rest.length ≤ n := by
        rw [hw] at h
        simp only [List.length_cons] at h
        exact Nat.lt_succ_iff.mp h
      exact le_trans h1 h2

/-- `uev_ctx_delete` always finishes with an empty watcher list. -/
lemma uev_ctx_delete_watchers (st : St) : (uev_ctx_delete st).watchers = [] := by
  show (ctxDeleteLoop st.watchers.length st).watchers = []
  exact ctxDeleteLoop_drains _ _ (Nat.le_refl _)

/-! ### Frame lemmas for the core operations -/

lemma new_watcher_openFds (st : St) (c : Bool) (ty : UevType) (fd : Int) (dir : UevDir)
    (h : Option (List Cmd)) (co eo : Bool) :
    (new_watcher st c ty fd dir h co eo).1.openFds = st.openFds := by
  unfold new_watcher; split_ifs <;> rfl

lemma new_watcher_running (st : St) (c : Bool) (ty : UevType) (fd : Int) (dir : UevDir)
    (h : Option (List Cmd)) (co eo : Bool) :
    (new_watcher st c ty fd dir h co eo).1.running = st.running := by
  unfold new_watcher; split_ifs <;> rfl

lemma uev_timer_set_openFds (st : St) (c : Bool) (ow : Option Nat) (t p : Int) :
    (uev_timer_set st c ow t p).1.openFds = st.openFds := by
  rcases ow with _ | wid
  · rfl
  · by_cases hc : c = false <;> by_cases hr : st.running = false <;>
      by_cases hok : timerfd_settime_ok t p <;>
        simp [uev_timer_set, hc, hr, hok]

lemma uev_timer_set_running (st : St) (c : Bool) (ow : Option Nat) (t p : Int) :
    (uev_timer_set st c ow t p).1.running = st.running := by
  rcases ow with _ | wid
  · rfl
  · by_cases hc : c = false <;> by_cases hr : st.running = false <;>
      by_cases hok : timerfd_settime_ok t p <;>
        simp [uev_timer_set, hc, hr, hok]

lemma uev_timer_set_epollSet (st : St) (c : Bool) (ow : Option Nat) (t p : Int) :
    (uev_timer_set st c ow t p).1.epollSet = st.epollSet := by
  rcases ow with _ | wid
  · rfl
  · by_cases hc : c = false <;> by_cases hr : st.running = false <;>
      by_cases hok : timerfd_settime_ok t p <;>
        simp [uev_timer_set, hc, hr, hok]

lemma uev_timer_set_map_id (st : St) (c : Bool) (ow : Option Nat) (t p : Int) :
    (uev_timer_set st c ow t p).1.watchers.map (fun w => w.id) =
      st.watchers.map (fun w => w.id) := by
  rcases ow with _ | wid
  · rfl
  · by_cases hc : c = false <;> by_cases hr : st.running = false <;>
      by_cases hok : timerfd_settime_ok t p <;>
        simp [uev_timer_set, hc, hr, hok, map_id_map_setTP, setTP_id]

lemma delete_watcher_openFds (st : St) (c : Bool) (ow : Option Nat) :
    (delete_watcher st c ow).1.openFds = st.openFds := by
  unfold delete_watcher
  rcases ow with _ | wid
  · rfl
  · split_ifs <;> rfl

lemma delete_watcher_running (st : St) (c : Bool) (ow : Option Nat) :
    (delete_watcher st c ow).1.running = st.running := by
  unfold delete_watcher
  rcases ow with _ | wid
  · rfl
  · split_ifs <;> rfl

lemma uev_timer_delete_openFds (st : St) (c : Bool) (ow : Option Nat) :
    (uev_timer_delete st c ow).1.openFds = st.openFds := by
  unfold uev_timer_delete
  rcases ow with _ | wid
  · rfl
  · split_ifs with hc
    · rfl
    · rw [delete_watcher_openFds, uev_timer_set_openFds]

lemma uev_timer_delete_running (st : St) (c : Bool) (ow : Option Nat) :
    (uev_timer_delete st c ow).1.running = st.running := by
  unfold uev_timer_delete
  rcases ow with _ | wid
  · rfl
  · split_ifs with hc
    · rfl
    · rw [delete_watcher_running, uev_timer_set_running]

/-! ### Claim C1: epoll registrations and watcher list in lock-step -/

/-- The C1 invariant: the epoll registration set is exactly the watcher
list, registration for registration (each watcher contributing its tag). -/
def LockStep (st : St) : Prop :=
  st.epollSet = st.watchers.map (fun w => w.id)

lemma lockStep_new_watcher (st : St) (c : Bool) (ty : UevType) (fd : Int) (dir : UevDir)
    (h : Option (List Cmd)) (co eo : Bool) (hs : LockStep st) :
    LockStep (new_watcher st c ty fd dir h co eo).1 := by
  unfold new_watcher LockStep at *
  split_ifs <;> simp [hs]

lemma lockStep_delete_watcher (st : St) (c : Bool) (ow : Option Nat) (hs : LockStep st) :
    LockStep (delete_watcher st c ow).1 := by
  unfold delete_watcher LockStep at *
  rcases ow with _ | wid
  · exact hs
  · split_ifs
    · exact hs
    · simp [map_id_removeW, hs]

lemma lockStep_timer_set (st : St) (c : Bool) (ow : Option Nat) (t p : Int)
    (hs : LockStep st) : LockStep (uev_timer_set st c ow t p).1 := by
  unfold LockStep
  rw [uev_timer_set_epollSet, uev_timer_set_map_id]
  exact hs

lemma lockStep_timer_delete (st : St) (c : Bool) (ow : Option Nat) (hs : LockStep st) :
    LockStep (uev_timer_delete st c ow).1 := by
  unfold uev_timer_delete
  rcases ow with _ | wid
  · exact hs
  · split_ifs
    · exact hs
    · exact lockStep_delete_watcher _ _ _ (lockStep_timer_set _ _ _ _ _ hs)

lemma lockStep_timer_create_body (st1 : St) (c : Bool) (h : Option (List Cmd))
    (t p fd : Int) (co eo : Bool) (hs1 : LockStep st1) :
    LockStep (uev_timer_create_body st1 c h t p fd co eo).1 := by
  unfold uev_timer_create_body
  have h2 := lockStep_new_watcher st1 c UevType.timer fd UevDir.inbound h co eo hs1
  rcases hnw : (new_watcher st1 c UevType.timer fd UevDir.inbound h co eo).2 with _ | wid
  · simp only [hnw]
    exact h2
  · simp only [hnw]
    have h3 := lockStep_timer_set _ c (some wid) t p h2
    split_ifs
    · exact h3
    · exact lockStep_delete_watcher _ c (some wid) h3

lemma lockStep_timer_create (st : St) (c : Bool) (h : Option (List Cmd)) (t p : Int)
    (tf co eo : Bool) (hs : LockStep st) :
    LockStep (uev_timer_create st c h t p tf co eo).1 := by
  unfold uev_timer_create
  split_ifs with htf
  · exact hs
  · exact lockStep_timer_create_body _ c h t p st.nextFd co eo hs

lemma lockStep_applyOp (st : St) (op : Op) (hs : LockStep st) :
    LockStep (applyOp st op) := by
  cases op with
  | ioCreate h fd dir co eo => exact lockStep_new_watcher st true UevType.file fd dir h co eo hs
  | ioDelete ow => exact lockStep_delete_watcher st true ow hs
  | timerCreate h t p tf co eo => exact lockStep_timer_create st true h t p tf co eo hs
  | timerDelete ow => exact lockStep_timer_delete st true ow hs

lemma lockStep_applyOps (ops : List Op) (st : St) (hs : LockStep st) :
    LockStep (applyOps st ops) := by
  induction ops generalizing st with
  | nil => exact hs
  | cons op ops ih => exact ih _ (lockStep_applyOp st op hs)

/-- Claim C1: starting from a fresh context, after any sequence of I/O and
timer create / delete operations, the set of epoll registrations is exactly
the watcher list (tag for tag): a watcher is registered with the
multiplexer if and only if it is on the watcher list, at every observation
point. -/
theorem c1_epoll_list_lockstep (efd : Int) (ops : List Op) :
    (applyOps (uev_ctx_create efd) ops).epollSet =
      (applyOps (uev_ctx_create efd) ops).watchers.map (fun w => w.id) :=
  lockStep_applyOps ops (uev_ctx_create efd) rfl

/-! ### Claim C8: timer creation closes the descriptor on every failure path -/

lemma uev_timer_create_body_fail_openFds (st1 : St) (c : Bool) (h : Option (List Cmd))
    (t p fd : Int) (co eo : Bool)
    (hfail : (uev_timer_create_body st1 c h t p fd co eo).2 = none) :
    (uev_timer_create_body st1 c h t p fd co eo).1.openFds = removeAll st1.openFds fd := by
  unfold uev_timer_create_body at hfail ⊢
  rcases hnw : (new_watcher st1 c UevType.timer fd UevDir.inbound h co eo).2 with _ | wid
  · simp only [hnw]
    simp [new_watcher_openFds]
  · simp only [hnw] at hfail ⊢
    split_ifs at hfail ⊢ with hz
    · simp [delete_watcher_openFds, uev_timer_set_openFds, new_watcher_openFds]

/-- Claim C8: whenever `uev_timer_create` fails — because `timerfd_create`
itself failed (no descriptor was allocated), because generic watcher
registration failed (`EINVAL`, `calloc`, or `epoll_ctl` rejection), or
because the initial arming failed — the set of open descriptors afterwards
equals the set before the call: the freshly created timer descriptor is
always closed before NULL is returned. -/
theorem c8_timer_create_no_fd_leak (st : St) (c : Bool) (h : Option (List Cmd))
    (t p : Int) (tf co eo : Bool)
    (hfresh : st.nextFd ∉ st.openFds)
    (hfail : (uev_timer_create st c h t p tf co eo).2 = none) :
    (uev_timer_create st c h t p tf co eo).1.openFds = st.openFds := by
  by_cases htf : tf = false
  · simp [uev_timer_create, htf]
  · have hb : uev_timer_create st c h t p tf co eo =
      uev_timer_create_body
        { st with nextFd := st.nextFd + 1, openFds := st.nextFd :: st.openFds }
        c h t p st.nextFd co eo := by
      simp [uev_timer_create, htf]
    rw [hb] at hfail ⊢
    rw [uev_timer_create_body_fail_openFds _ _ _ _ _ _ _ _ hfail]
    simp [removeAll, removeAll_of_not_mem hfresh]

/-- Witness for C8: on a fresh context (epoll fd 3, next descriptor 4), a
timer creation whose `epoll_ctl` registration is rejected leaves exactly
the original open-descriptor set: the timer descriptor 4 was closed. -/
theorem c8_timer_create_no_fd_leak_witness :
    (uev_timer_create (uev_ctx_create 3) true (some []) 0 0 true true false).1.openFds =
      (uev_ctx_create 3).openFds :=
  c8_timer_create_no_fd_leak (uev_ctx_create 3) true (some []) 0 0 true true false
    (by decide) (by decide)

/-! ### Claim C5: arming is deferred until the loop starts -/

lemma armStep_running (st : St) (w : Watcher) : (armStep st w).running = st.running := by
  unfold armStep
  split_ifs
  · rw [uev_timer_set_running]
  · rfl

lemma armAll_running (l : List Watcher) (st : St) :
    (armAll l st).running = st.running := by
  induction l generalizing st with
  | nil => rfl
  | cons w ws ih =>
    show (armAll ws (armStep st w)).running = st.running
    rw [ih, armStep_running]

/-- Effect of the deferred-arm pass when the loop is running, every watcher
of the snapshot list appears in the live list with exactly its own stored
values, and every stored timer schedule is acceptable to the OS: the
watcher list is unchanged (each node is rewritten with its own values) and
the program log gains exactly one `timerfd_settime` entry per timer
watcher, carrying the stored timeout and period. -/
lemma armAll_spec (l : List Watcher) (st : St)
    (hrun : st.running = true)
    (hsub : ∀ w ∈ l, ∀ w' ∈ st.watchers, w'.id = w.id →
      w'.timeout = w.timeout ∧ w'.period = w.period)
    (hok : ∀ w ∈ l, w.type = UevType.timer →
      timerfd_settime_ok w.timeout w.period = true) :
    (armAll l st).watchers = st.watchers ∧
    (armAll l st).programLog = st.programLog ++
      (l.filter (fun w => decide (w.type = UevType.timer))).map
        (fun w => (w.id, w.timeout, w.period)) := by
  induction l generalizing st with
  | nil => simp [armAll]
  | cons w ws ih =>
    have hstep : armAll (w :: ws) st = armAll ws (armStep st w) := rfl
    by_cases ht : w.type = UevType.timer
    · have hokw := hok w (List.mem_cons_self _ _) ht
      have hmap : st.watchers.map (setTP w.id w.timeout w.period) = st.watchers :=
        map_setTP_self (fun w' hw' hid => hsub w (List.mem_cons_self _ _) w' hw' hid)
      have hstw : armStep st w =
          { st with programLog := st.programLog ++ [(w.id, w.timeout, w.period)] } := by
        unfold armStep
        rw [if_pos ht]
        simp [uev_timer_set, hrun, hokw, hmap]
      have hsub' : ∀ w2 ∈ ws, ∀ w' ∈ (armStep st w).watchers, w'.id = w2.id →
          w'.timeout = w2.timeout ∧ w'.period = w2.period := by
        rw [hstw]
        exact fun w2 hw2 w' hw' hid =>
          hsub w2 (List.mem_cons_of_mem _ hw2) w' hw' hid
      have hok' : ∀ w2 ∈ ws, w2.type = UevType.timer →
          timerfd_settime_ok w2.timeout w2.period = true :=
        fun w2 hw2 => hok w2 (List.mem_cons_of_mem _ hw2)
      have hrun' : (armStep st w).running = true := by rw [armStep_running, hrun]
      obtain ⟨ihw, ihl⟩ := ih (armStep st w) hrun' hsub' hok'
      constructor
      · rw [hstep, ihw, hstw]
      · rw [hstep, ihl, hstw]
        simp [ht, List.append_assoc]
    · have hstw : armStep st w = st := by
        unfold armStep
        rw [if_neg ht]
      have hsub' : ∀ w2 ∈ ws, ∀ w' ∈ (armStep st w).watchers, w'.id = w2.id →
          w'.timeout = w2.timeout ∧ w'.period = w2.period := by
        rw [hstw]
        exact fun w2 hw2 w' hw' hid =>
          hsub w2 (List.mem_cons_of_mem _ hw2) w' hw' hid
      have hok' : ∀ w2 ∈ ws, w2.type = UevType.timer →
          timerfd_settime_ok w2.timeout w2.period = true :=
        fun w2 hw2 => hok w2 (List.mem_cons_of_mem _ hw2)
      have hrun' : (armStep st w).running = true := by rw [armStep_running, hrun]
      obtain ⟨ihw, ihl⟩ := ih (armStep st w) hrun' hsub' hok'
      constructor
      · rw [hstep, ihw, hstw]
      · rw [hstep, ihl, hstw]
        simp [ht]

/-- Claim C5: (a) arming a timer while the loop is not running stores the
requested timeout and period on the watcher and returns 0 without issuing
any `timerfd_settime` call; (b) `uev_run` on a valid context first runs the
deferred-arm pass, which re-invokes arming with the stored timeout and
period for every registered timer watcher — so each timer is programmed at
loop start from its stored values — and leaves the watcher list unchanged. -/
theorem c5_timer_arming_deferred_until_run :
    (∀ (st : St) (wid : Nat) (w : Watcher) (t p : Int),
      st.running = false →
      lookupW st.watchers wid = some w →
      (uev_timer_set st true (some wid) t p).2 = 0 ∧
      (uev_timer_set st true (some wid) t p).1.programLog = st.programLog ∧
      lookupW (uev_timer_set st true (some wid) t p).1.watchers wid =
        some { w with timeout := t, period := p }) ∧
    (∀ (st : St) (trace : List WaitOutcome),
      (st.watchers.map (fun w => w.id)).Nodup →
      (∀ w ∈ st.watchers, w.type = UevType.timer →
        timerfd_settime_ok w.timeout w.period = true) →
      uev_run st true trace =
        RunOutcome.done (runLoop (startTimers { st with running := true }) {} 0 trace) ∧
      (startTimers { st with running := true }).watchers = st.watchers ∧
      (startTimers { st with running := true }).programLog = st.programLog ++
        (st.watchers.filter (fun w => decide (w.type = UevType.timer))).map
          (fun w => (w.id, w.timeout, w.period))) := by
  constructor
  · intro st wid w t p hrun hfind
    unfold uev_timer_set
    simp [hrun, lookupW_map_setTP_self, hfind]
  · intro st trace hnd hok
    have hspec := armAll_spec st.watchers { st with running := true } rfl
      (fun w hw w' hw' hid => by
        have := nodup_map_id_inj hnd w hw w' hw' hid
        rw [this]
        exact ⟨rfl, rfl⟩)
      hok
    exact ⟨by simp [uev_run], hspec.1, hspec.2⟩

/-- Concrete context for the C5 witness: loop not running, one timer
watcher (tag 0, stored timeout 10, period 0). -/
def c5st : St :=
  { watchers := [{ id := 0, type := UevType.timer, fd := 4, dir := UevDir.inbound,
                   handler := some [], timeout := 10, period := 0 }],
    epollSet := [0], running := false, nextId := 1, nextFd := 5,
    openFds := [3, 4], efd := 3, programLog := [] }

/-- Witness for C5: before the loop runs, arming stores values and issues no
OS call; starting the loop programs the dormant timer with its stored
schedule. -/
theorem c5_timer_arming_deferred_until_run_witness :
    ((uev_timer_set c5st true (some 0) 7 9).2 = 0 ∧
     (uev_timer_set c5st true (some 0) 7 9).1.programLog = c5st.programLog ∧
     lookupW (uev_timer_set c5st true (some 0) 7 9).1.watchers 0 =
       some { id := 0, type := UevType.timer, fd := 4, dir := UevDir.inbound,
              handler := some [], timeout := 7, period := 9 }) ∧
    (uev_run c5st true [] =
       RunOutcome.done (runLoop (startTimers { c5st with running := true }) {} 0 []) ∧
     (startTimers { c5st with running := true }).watchers = c5st.watchers ∧
     (startTimers { c5st with running := true }).programLog = c5st.programLog ++
       (c5st.watchers.filter (fun w => decide (w.type = UevType.timer))).map
         (fun w => (w.id, w.timeout, w.period))) :=
  ⟨c5_timer_arming_deferred_until_run.1 c5st 0
      { id := 0, type := UevType.timer, fd := 4, dir := UevDir.inbound,
        handler := some [], timeout := 10, period := 0 }
      7 9 rfl (by decide),
   c5_timer_arming_deferred_until_run.2 c5st [] (by decide) (by decide)⟩

/-! ### Claim C6: a rearm from the fired timer's own callback is honored -/

/-- Claim C6: when a timer fires with stored period zero and its callback
rearms it with a nonzero period, the post-callback one-shot check in the
dispatch loop reads the period just stored by the rearm: the watcher is
not deleted, its stored schedule is the new one, the rearm was programmed
into the OS timer (one `timerfd_settime` entry with the new values), and
the `result` local is untouched. -/
theorem c6_callback_rearm_honored (st : St) (stats : RunStats) (result : Int)
    (w : Watcher) (t p : Int)
    (hfind : lookupW st.watchers w.id = some w)
    (hty : w.type = UevType.timer)
    (hcb : w.handler = some [Cmd.timerSet w.id t p])
    (hrun : st.running = true)
    (hok : timerfd_settime_ok t p = true)
    (hp : p ≠ 0) :
    lookupW (processEvent st stats result (w.id, true)).1.watchers w.id =
      some { w with timeout := t, period := p } ∧
    (processEvent st stats result (w.id, true)).1.programLog =
      st.programLog ++ [(w.id, t, p)] ∧
    (processEvent st stats result (w.id, true)).2.2 = result := by
  have hset : uev_timer_set st true (some w.id) t p =
      ({ st with watchers := st.watchers.map (setTP w.id t p),
                 programLog := st.programLog ++ [(w.id, t, p)] }, 0) := by
    simp [uev_timer_set, hrun, hok]
  have hlook : lookupW (st.watchers.map (setTP w.id t p)) w.id =
      some { w with timeout := t, period := p } := by
    rw [lookupW_map_setTP_self, hfind]
    rfl
  simp [processEvent, hfind, hty, afterCb, hcb, runCmds, runCmd, hset,
    timerHousekeep, hlook, hp]

/-- Concrete context for the C6 witness: one fired one-shot timer whose
callback rearms it with period 50. -/
def c6st : St :=
  { watchers := [{ id := 0, type := UevType.timer, fd := 4, dir := UevDir.inbound,
                   handler := some [Cmd.timerSet 0 50 50], timeout := 10, period := 0 }],
    epollSet := [0], running := true, nextId := 1, nextFd := 5,
    openFds := [3, 4], efd := 3, programLog := [] }

/-- Witness for C6: the rearmed timer survives its firing with the new
schedule stored and programmed. -/
theorem c6_callback_rearm_honored_witness :
    lookupW (processEvent c6st {} 0 (0, true)).1.watchers 0 =
      some { id := 0, type := UevType.timer, fd := 4, dir := UevDir.inbound,
             handler := some [Cmd.timerSet 0 50 50], timeout := 50, period := 50 } ∧
    (processEvent c6st {} 0 (0, true)).1.programLog = c6st.programLog ++ [(0, 50, 50)] ∧
    (processEvent c6st {} 0 (0, true)).2.2 = 0 :=
  c6_callback_rearm_honored c6st {} 0
    { id := 0, type := UevType.timer, fd := 4, dir := UevDir.inbound,
      handler := some [Cmd.timerSet 0 50 50], timeout := 10, period := 0 }
    50 50 (by decide) rfl rfl rfl (by decide) (by decide)

/-! ### Absence preservation through the dispatch loop (for claim C3) -/

lemma absent_iff_not_mem_map (st : St) (v : Nat) :
    Absent st v ↔ v ∉ st.watchers.map (fun w => w.id) := by
  unfold Absent
  constructor
  · intro h hmem
    obtain ⟨w, hw, hid⟩ := List.mem_map.mp hmem
    exact h w hw hid
  · intro h w hw hid
    exact h (List.mem_map.mpr ⟨w, hw, hid⟩)

lemma absent_timer_set {st : St} {v : Nat} (c : Bool) (ow : Option Nat) (t p : Int)
    (ha : Absent st v) : Absent (uev_timer_set st c ow t p).1 v := by
  rw [absent_iff_not_mem_map] at ha ⊢
  rw [uev_timer_set_map_id]
  exact ha

lemma absent_delete_watcher {st : St} {v : Nat} (c : Bool) (ow : Option Nat)
    (ha : Absent st v) : Absent (delete_watcher st c ow).1 v := by
  intro w hw
  rcases ow with _ | wid
  · exact ha w hw
  · simp only [delete_watcher] at hw
    split_ifs at hw
    · exact ha w hw
    · exact ha w (mem_removeW hw)

lemma absent_timer_delete {st : St} {v : Nat} (c : Bool) (ow : Option Nat)
    (ha : Absent st v) : Absent (uev_timer_delete st c ow).1 v := by
  rcases ow with _ | wid
  · exact ha
  · simp only [uev_timer_delete]
    split_ifs
    · exact ha
    · exact absent_delete_watcher c (some wid) (absent_timer_set c (some wid) 0 0 ha)

lemma absent_runCmd {st : St} {v : Nat} (stats : RunStats) (c : Cmd)
    (ha : Absent st v) : Absent (runCmd st stats c).1 v := by
  cases c with
  | nop => exact ha
  | timerSet wid t p => exact absent_timer_set true (some wid) t p ha
  | timerDelete wid => exact absent_timer_delete true (some wid) ha
  | exitLoop => exact ha

lemma runCmd_invoked (st : St) (stats : RunStats) (c : Cmd) :
    (runCmd st stats c).2.invoked = stats.invoked := by
  cases c <;> rfl

lemma absent_runCmds {v : Nat} (cs : List Cmd) (st : St) (stats : RunStats)
    (ha : Absent st v) : Absent (runCmds st stats cs).1 v := by
  induction cs generalizing st stats with
  | nil => exact ha
  | cons c cs ih => exact ih _ _ (absent_runCmd stats c ha)

lemma runCmds_invoked (cs : List Cmd) (st : St) (stats : RunStats) :
    (runCmds st stats cs).2.invoked = stats.invoked := by
  induction cs generalizing st stats with
  | nil => rfl
  | cons c cs ih =>
    show (runCmds (runCmd st stats c).1 (runCmd st stats c).2 cs).2.invoked = _
    rw [ih, runCmd_invoked]

lemma absent_afterCb {st : St} {v : Nat} (stats : RunStats) (w : Watcher)
    (ha : Absent st v) : Absent (afterCb st stats w).1 v := by
  rcases hh : w.handler with _ | cb
  · simp only [afterCb, hh]
    exact ha
  · simp only [afterCb, hh]
    exact absent_runCmds cb _ _ ha

lemma afterCb_invoked_count {w : Watcher} {v : Nat} (st : St) (stats : RunStats)
    (hne : w.id ≠ v) :
    ((afterCb st stats w).2.invoked).count v = stats.invoked.count v := by
  rcases hh : w.handler with _ | cb
  · simp only [afterCb, hh]
  · simp only [afterCb, hh, runCmds_invoked]
    simp [List.count_append, List.count_singleton', hne]

lemma afterCb_invoked_of_handler {w : Watcher} {cb : List Cmd} (st : St)
    (stats : RunStats) (hcb : w.handler = some cb) :
    (afterCb st stats w).2.invoked = stats.invoked ++ [w.id] := by
  simp only [afterCb, hcb, runCmds_invoked]

lemma absent_timerHousekeep {st : St} {v : Nat} (stats : RunStats) (result : Int)
    (wid : Nat) (ro : Bool) (ha : Absent st v) :
    Absent (timerHousekeep st stats result wid ro).1 v := by
  by_cases hro : ro = true
  · simp only [timerHousekeep, if_pos hro]
    rcases hl : lookupW st.watchers wid with _ | w'
    · simp only [hl]
      exact ha
    · simp only [hl]
      split_ifs
      · exact absent_timer_delete true (some wid) ha
      · exact ha
  · simp only [timerHousekeep, if_neg hro]
    have ha' : Absent { st with running := false } v := ha
    rcases hl : lookupW ({ st with running := false } : St).watchers wid with _ | w'
    · simp only [hl]
      exact ha'
    · simp only [hl]
      split_ifs
      · exact absent_timer_delete true (some wid) ha'
      · exact ha'

lemma timerHousekeep_invoked (st : St) (stats : RunStats) (result : Int)
    (wid : Nat) (ro : Bool) :
    (timerHousekeep st stats result wid ro).2.1.invoked = stats.invoked := by
  by_cases hro : ro = true
  · simp only [timerHousekeep, if_pos hro]
    rcases hl : lookupW st.watchers wid with _ | w'
    · simp only [hl]
    · simp only [hl]
      split_ifs <;> rfl
  · simp only [timerHousekeep, if_neg hro]
    rcases hl : lookupW ({ st with running := false } : St).watchers wid with _ | w'
    · simp only [hl]
    · simp only [hl]
      split_ifs <;> rfl

lemma absent_processEvent {st : St} {v : Nat} (stats : RunStats) (result : Int)
    (ev : Nat × Bool) (ha : Absent st v) :
    Absent (processEvent st stats result ev).1 v ∧
    (processEvent st stats result ev).2.1.invoked.count v = stats.invoked.count v := by
  rcases hl : lookupW st.watchers ev.1 with _ | w
  · simp only [processEvent, hl]
    exact ⟨ha, by simp⟩
  · have hw := lookupW_mem hl
    have hne : w.id ≠ v := ha w hw.1
    simp only [processEvent, hl]
    split_ifs with ht
    · refine ⟨absent_timerHousekeep _ _ _ _ (absent_afterCb stats w ha), ?_⟩
      rw [timerHousekeep_invoked, afterCb_invoked_count _ _ hne]
    · exact ⟨absent_afterCb stats w ha, afterCb_invoked_count _ _ hne⟩

lemma absent_processBatch {v : Nat} (evs : List (Nat × Bool)) (st : St)
    (stats : RunStats) (result : Int) (ha : Absent st v) :
    Absent (processBatch st stats result evs).1 v ∧
    (processBatch st stats result evs).2.1.invoked.count v = stats.invoked.count v := by
  induction evs generalizing st stats result with
  | nil => exact ⟨ha, rfl⟩
  | cons ev evs ih =>
    obtain ⟨h1, h2⟩ := absent_processEvent stats result ev ha
    obtain ⟨h3, h4⟩ := ih _ _ _ h1
    exact ⟨h3, h4.trans h2⟩

lemma absent_runLoop {v : Nat} (trace : List WaitOutcome) (st : St)
    (stats : RunStats) (result : Int) (ha : Absent st v) :
    Absent (runLoop st stats result trace).st v ∧
    (runLoop st stats result trace).stats.invoked.count v = stats.invoked.count v := by
  induction trace generalizing st stats result with
  | nil => exact ⟨ha, rfl⟩
  | cons o rest ih =>
    by_cases hr : st.running = false
    · simp only [runLoop, if_pos hr]
      exact ⟨ha, by simp⟩
    · simp only [runLoop, if_neg hr]
      cases o with
      | intr => exact ih _ _ _ ha
      | fail => exact ih _ _ _ ha
      | ready evs =>
        obtain ⟨h1, h2⟩ := absent_processBatch evs st stats result ha
        obtain ⟨h3, h4⟩ := ih _ _ _ h1
        exact ⟨h3, h4.trans h2⟩

lemma lookupW_timer_delete_self (st : St) (wid : Nat) :
    lookupW (uev_timer_delete st true (some wid)).1.watchers wid = none := by
  simp only [uev_timer_delete, delete_watcher]
  simp [lookupW_removeW_self]

/-! ### Claim C3: one-shot timers are deleted at their single firing -/

/-- Claim C3: when a timer watcher fires and its stored period as read by
the post-callback check is zero (in particular, a one-shot timer whose
callback did not rearm it), the dispatch loop deletes the watcher in the
same iteration: afterwards it is no longer resolvable in the watcher list,
its callback was invoked exactly once for the firing, and for every
continuation of the loop the watcher stays absent and its callback
invocation count never grows again. -/
theorem c3_oneshot_timer_autodelete (st : St) (stats : RunStats) (result : Int)
    (w : Watcher) (cb : List Cmd)
    (hfind : lookupW st.watchers w.id = some w)
    (hty : w.type = UevType.timer)
    (hcb : w.handler = some cb)
    (hper : ∀ w', lookupW (afterCb st stats w).1.watchers w.id = some w' →
      w'.period = 0) :
    lookupW (processEvent st stats result (w.id, true)).1.watchers w.id = none ∧
    (processEvent st stats result (w.id, true)).2.1.invoked = stats.invoked ++ [w.id] ∧
    ∀ trace : List WaitOutcome,
      Absent (runLoop (processEvent st stats result (w.id, true)).1
          (processEvent st stats result (w.id, true)).2.1
          (processEvent st stats result (w.id, true)).2.2 trace).st w.id ∧
      (runLoop (processEvent st stats result (w.id, true)).1
          (processEvent st stats result (w.id, true)).2.1
          (processEvent st stats result (w.id, true)).2.2 trace).stats.invoked.count w.id =
        (stats.invoked ++ [w.id]).count w.id := by
  have hpe : processEvent st stats result (w.id, true) =
      timerHousekeep (afterCb st stats w).1 (afterCb st stats w).2 result w.id true := by
    simp [processEvent, hfind, hty]
  have hTH : lookupW (timerHousekeep (afterCb st stats w).1 (afterCb st stats w).2
      result w.id true).1.watchers w.id = none := by
    simp only [timerHousekeep, if_true]
    rcases hl : lookupW (afterCb st stats w).1.watchers w.id with _ | w'
    · simp only [hl]
    · simp only [hl]
      rw [if_pos (hper w' hl)]
      exact lookupW_timer_delete_self _ _
  have hinv : (timerHousekeep (afterCb st stats w).1 (afterCb st stats w).2
      result w.id true).2.1.invoked = stats.invoked ++ [w.id] := by
    rw [timerHousekeep_invoked, afterCb_invoked_of_handler _ _ hcb]
  refine ⟨by rw [hpe]; exact hTH, by rw [hpe]; exact hinv, ?_⟩
  intro trace
  have habs : Absent (processEvent st stats result (w.id, true)).1 w.id := by
    rw [hpe]
    exact (lookupW_eq_none_iff _ _).mp hTH
  obtain ⟨h1, h2⟩ := absent_runLoop trace _ _ _ habs
  refine ⟨h1, ?_⟩
  rw [h2, hpe, hinv]

/-- The one-shot timer watcher for the C3 witness. -/
def c3w : Watcher :=
  { id := 0, type := UevType.timer, fd := 4, dir := UevDir.inbound,
    handler := some [Cmd.nop], timeout := 10, period := 0 }

/-- Concrete context for the C3 witness. -/
def c3st : St :=
  { watchers := [c3w], epollSet := [0], running := true, nextId := 1, nextFd := 5,
    openFds := [3, 4], efd := 3, programLog := [] }

/-- Witness for C3: the one-shot timer fires once, is deleted, and stays
gone with no further invocation through a subsequent loop iteration. -/
theorem c3_oneshot_timer_autodelete_witness :
    lookupW (processEvent c3st {} 0 (0, true)).1.watchers 0 = none ∧
    (processEvent c3st {} 0 (0, true)).2.1.invoked = [0] ∧
    (Absent (runLoop (processEvent c3st {} 0 (0, true)).1
        (processEvent c3st {} 0 (0, true)).2.1
        (processEvent c3st {} 0 (0, true)).2.2 [WaitOutcome.ready [(0, true)]]).st 0 ∧
     (runLoop (processEvent c3st {} 0 (0, true)).1
        (processEvent c3st {} 0 (0, true)).2.1
        (processEvent c3st {} 0 (0, true)).2.2
        [WaitOutcome.ready [(0, true)]]).stats.invoked.count 0 = 1) :=
  have h := c3_oneshot_timer_autodelete c3st {} 0 c3w [Cmd.nop] (by decide) rfl rfl
    (by
      intro w' hl
      have h2 : some c3w = some w' := hl
      injection h2 with h3
      rw [← h3]
      rfl)
  ⟨h.1, h.2.1, h.2.2 [WaitOutcome.ready [(0, true)]]⟩

/-! ### Claim C7: dispatch-loop error discipline -/

/-- The loop result discipline: the `result` local is 0 exactly when no
wait failure and no timer-read failure has been recorded. -/
def GoodRes (stats : RunStats) (result : Int) : Prop :=
  result = 0 ↔ (stats.waitFailed = false ∧ stats.readFailed = false)

/-- Whenever the running flag is off, some stop cause has been recorded:
a wait failure, a timer-read failure, or an explicit exit request. -/
def StopOK (st : St) (stats : RunStats) : Prop :=
  st.running = false →
    stats.waitFailed = true ∨ stats.readFailed = true ∨ stats.exitCalled = true

lemma runCmd_waitFailed (st : St) (stats : RunStats) (c : Cmd) :
    (runCmd st stats c).2.waitFailed = stats.waitFailed := by
  cases c <;> rfl

lemma runCmd_readFailed (st : St) (stats : RunStats) (c : Cmd) :
    (runCmd st stats c).2.readFailed = stats.readFailed := by
  cases c <;> rfl

lemma stopOK_runCmd {st : St} {stats : RunStats} (c : Cmd) (h : StopOK st stats) :
    StopOK (runCmd st stats c).1 (runCmd st stats c).2 := by
  cases c with
  | nop => exact h
  | timerSet wid t p =>
    intro hr
    simp only [runCmd] at hr ⊢
    rw [uev_timer_set_running] at hr
    exact h hr
  | timerDelete wid =>
    intro hr
    simp only [runCmd] at hr ⊢
    rw [uev_timer_delete_running] at hr
    exact h hr
  | exitLoop =>
    intro _
    right; right; rfl

lemma stopOK_runCmds (cs : List Cmd) (st : St) (stats : RunStats)
    (h : StopOK st stats) : StopOK (runCmds st stats cs).1 (runCmds st stats cs).2 := by
  induction cs generalizing st stats with
  | nil => exact h
  | cons c cs ih => exact ih _ _ (stopOK_runCmd c h)

lemma runCmds_waitFailed (cs : List Cmd) (st : St) (stats : RunStats) :
    (runCmds st stats cs).2.waitFailed = stats.waitFailed := by
  induction cs generalizing st stats with
  | nil => rfl
  | cons c cs ih =>
    show (runCmds (runCmd st stats c).1 (runCmd st stats c).2 cs).2.waitFailed = _
    rw [ih, runCmd_waitFailed]

lemma runCmds_readFailed (cs : List Cmd) (st : St) (stats : RunStats) :
    (runCmds st stats cs).2.readFailed = stats.readFailed := by
  induction cs generalizing st stats with
  | nil => rfl
  | cons c cs ih =>
    show (runCmds (runCmd st stats c).1 (runCmd st stats c).2 cs).2.readFailed = _
    rw [ih, runCmd_readFailed]

lemma stopOK_afterCb {st : St} {stats : RunStats} (w : Watcher)
    (h : StopOK st stats) : StopOK (afterCb st stats w).1 (afterCb st stats w).2 := by
  rcases hh : w.handler with _ | cb
  · simp only [afterCb, hh]
    exact h
  · simp only [afterCb, hh]
    exact stopOK_runCmds cb _ _ (fun hr => h hr)

lemma afterCb_waitFailed (st : St) (stats : RunStats) (w : Watcher) :
    (afterCb st stats w).2.waitFailed = stats.waitFailed := by
  rcases hh : w.handler with _ | cb <;> simp only [afterCb, hh]
  rw [runCmds_waitFailed]

lemma afterCb_readFailed (st : St) (stats : RunStats) (w : Watcher) :
    (afterCb st stats w).2.readFailed = stats.readFailed := by
  rcases hh : w.handler with _ | cb <;> simp only [afterCb, hh]
  rw [runCmds_readFailed]

lemma timerHousekeep_inv {st : St} {stats : RunStats} {result : Int}
    (wid : Nat) (ro : Bool) (hg : GoodRes stats result) (hs : StopOK st stats) :
    GoodRes (timerHousekeep st stats result wid ro).2.1
      (timerHousekeep st stats result wid ro).2.2 ∧
    StopOK (timerHousekeep st stats result wid ro).1
      (timerHousekeep st stats result wid ro).2.1 := by
  by_cases hro : ro = true
  · simp only [timerHousekeep, if_pos hro]
    rcases hl : lookupW st.watchers wid with _ | w'
    · simp only [hl]
      exact ⟨hg, hs⟩
    · simp only [hl]
      split_ifs
      · refine ⟨hg, ?_⟩
        intro hr
        rw [uev_timer_delete_running] at hr
        exact hs hr
      · exact ⟨hg, hs⟩
  · simp only [timerHousekeep, if_neg hro]
    rcases hl : lookupW ({ st with running := false } : St).watchers wid with _ | w'
    · simp only [hl]
      exact ⟨by simp [GoodRes], fun _ => Or.inr (Or.inl rfl)⟩
    · simp only [hl]
      split_ifs
      · exact ⟨by simp [GoodRes], fun _ => Or.inr (Or.inl rfl)⟩
      · exact ⟨by simp [GoodRes], fun _ => Or.inr (Or.inl rfl)⟩

lemma processEvent_inv {st : St} {stats : RunStats} {result : Int}
    (ev : Nat × Bool) (hg : GoodRes stats result) (hs : StopOK st stats) :
    GoodRes (processEvent st stats result ev).2.1 (processEvent st stats result ev).2.2 ∧
    StopOK (processEvent st stats result ev).1 (processEvent st stats result ev).2.1 := by
  rcases hl : lookupW st.watchers ev.1 with _ | w
  · simp only [processEvent, hl]
    exact ⟨hg, hs⟩
  · simp only [processEvent, hl]
    have hg' : GoodRes (afterCb st stats w).2 result := by
      unfold GoodRes at hg ⊢
      rw [afterCb_waitFailed, afterCb_readFailed]
      exact hg
    split_ifs with ht
    · exact timerHousekeep_inv w.id ev.2 hg' (stopOK_afterCb w hs)
    · exact ⟨hg', stopOK_afterCb w hs⟩

lemma processBatch_inv (evs : List (Nat × Bool)) (st : St) (stats : RunStats)
    (result : Int) (hg : GoodRes stats result) (hs : StopOK st stats) :
    GoodRes (processBatch st stats result evs).2.1
      (processBatch st stats result evs).2.2 ∧
    StopOK (processBatch st stats result evs).1
      (processBatch st stats result evs).2.1 := by
  induction evs generalizing st stats result with
  | nil => exact ⟨hg, hs⟩
  | cons ev evs ih =>
    obtain ⟨h1, h2⟩ := processEvent_inv ev hg hs
    exact ih _ _ _ h1 h2

lemma runLoop_not_running (st : St) (stats : RunStats) (result : Int)
    (trace : List WaitOutcome) (h : st.running = false) :
    runLoop st stats result trace =
      { st := st, stats := stats, result := result, blockedFlag := false } := by
  cases trace with
  | nil => simp [runLoop, h]
  | cons o rest => simp [runLoop, h]

lemma runLoop_inv (trace : List WaitOutcome) (st : St) (stats : RunStats)
    (result : Int) (hg : GoodRes stats result) (hs : StopOK st stats) :
    GoodRes (runLoop st stats result trace).stats (runLoop st stats result trace).result ∧
    StopOK (runLoop st stats result trace).st (runLoop st stats result trace).stats ∧
    ((runLoop st stats result trace).blockedFlag = false →
      (runLoop st stats result trace).st.running = false) := by
  induction trace generalizing st stats result with
  | nil => exact ⟨hg, hs, fun h => h⟩
  | cons o rest ih =>
    by_cases hr : st.running = false
    · simp only [runLoop, if_pos hr]
      exact ⟨hg, hs, fun _ => hr⟩
    · simp only [runLoop, if_neg hr]
      cases o with
      | intr => exact ih _ _ _ hg hs
      | fail =>
        apply ih
        · unfold GoodRes
          simp
        · intro _
          left
          rfl
      | ready evs =>
        obtain ⟨h1, h2⟩ := processBatch_inv evs st stats result hg hs
        exact ih _ _ _ h1 h2

/-- Claim C7: (1) `uev_run` on a null context returns -1 (`EINVAL`)
immediately; (2) a signal-interrupted wait is retried identically, not
treated as an error; (3) any other wait failure records the failure,
clears the running flag and makes the loop return -1 at once; (4) whenever
`uev_run` on a valid context actually returns (is not still blocked), its
result is 0 exactly when no wait failure and no timer-read failure was
recorded, and a 0 result implies the loop was terminated by an explicit
`uev_exit` request. -/
theorem c7_run_error_discipline :
    (∀ (st : St) (trace : List WaitOutcome),
      uev_run st false trace = RunOutcome.einval (-1)) ∧
    (∀ (st : St) (stats : RunStats) (result : Int) (rest : List WaitOutcome),
      st.running = true →
      runLoop st stats result (WaitOutcome.intr :: rest) = runLoop st stats result rest) ∧
    (∀ (st : St) (stats : RunStats) (result : Int) (rest : List WaitOutcome),
      st.running = true →
      runLoop st stats result (WaitOutcome.fail :: rest) =
        { st := { st with running := false }, stats := { stats with waitFailed := true },
          result := -1, blockedFlag := false }) ∧
    (∀ (st : St) (trace : List WaitOutcome) (r : LoopRes),
      uev_run st true trace = RunOutcome.done r →
      r.blockedFlag = false →
      ((r.result = 0 ↔ r.stats.waitFailed = false ∧ r.stats.readFailed = false) ∧
       (r.result = 0 → r.stats.exitCalled = true))) := by
  refine ⟨?_, ?_, ?_, ?_⟩
  · intro st trace
    simp [uev_run]
  · intro st stats result rest hrun
    simp [runLoop, hrun]
  · intro st stats result rest hrun
    simp only [runLoop, hrun]
    simp only [Bool.true_eq_false, if_false]
    exact runLoop_not_running _ _ _ _ rfl
  · intro st trace r heq hbl
    have hrq : runLoop (startTimers { st with running := true }) {} 0 trace = r := by
      simp [uev_run] at heq
      exact heq
    subst hrq
    have hrun0 : (startTimers { st with running := true }).running = true := by
      unfold startTimers
      rw [armAll_running]
    have hsi : StopOK (startTimers { st with running := true }) {} := by
      intro h
      rw [hrun0] at h
      exact Bool.noConfusion h
    obtain ⟨hg, hs, hb⟩ := runLoop_inv trace _ {} 0 (by unfold GoodRes; simp) hsi
    refine ⟨hg, ?_⟩
    intro h0
    obtain ⟨hw, hrd⟩ := hg.mp h0
    rcases hs (hb hbl) with h | h | h
    · rw [hw] at h
      exact Bool.noConfusion h
    · rw [hrd] at h
      exact Bool.noConfusion h
    · exact h

/-- Concrete running context for the C7 witness. -/
def c7st : St :=
  { watchers := [], epollSet := [], running := true, nextId := 0, nextFd := 4,
    openFds := [3], efd := 3, programLog := [] }

/-- The loop result of running a fresh context against a single failing
wait, for the C7 witness. -/
def c7res : LoopRes :=
  { st := { watchers := [], epollSet := [], running := false, nextId := 0, nextFd := 4,
            openFds := [3], efd := 3, programLog := [] },
    stats := { waitFailed := true, readFailed := false, exitCalled := false, invoked := [] },
    result := -1, blockedFlag := false }

/-- Witness for C7: a retried interruption, a fatal wait failure, and the
returned-result discipline, all at concrete inputs. -/
theorem c7_run_error_discipline_witness :
    (runLoop c7st {} 0 [WaitOutcome.intr] = runLoop c7st {} 0 []) ∧
    (runLoop c7st {} 0 [WaitOutcome.fail] =
      { st := { c7st with running := false },
        stats := { waitFailed := true, readFailed := false, exitCalled := false,
                   invoked := [] },
        result := -1, blockedFlag := false }) ∧
    ((c7res.result = 0 ↔ c7res.stats.waitFailed = false ∧ c7res.stats.readFailed = false) ∧
     (c7res.result = 0 → c7res.stats.exitCalled = true)) :=
  ⟨c7_run_error_discipline.2.1 c7st {} 0 [] rfl,
   c7_run_error_discipline.2.2.1 c7st {} 0 [] rfl,
   c7_run_error_discipline.2.2.2 (uev_ctx_create 3) [WaitOutcome.fail] c7res
     (by decide) rfl⟩

end LibUEV
